import Mathlib

/-!
Verification of the evergreen-note-cultivator plugin core logic.

Shallow embedding conventions:
* JS strings are modelled as `List Char` (`Str`).
* JS numbers are modelled as `ℚ` (exact arithmetic); `Math.round` is
  `jsRound` (floor of x + 1/2, which is JS round-half-up semantics).
* Fallible constructors (TS `throw`) are modelled with `Except Str`.
* JS `Map` / plain objects are modelled as insertion-ordered association
  lists with overwrite-on-set (`mapSet` / lookup helpers).
-/

namespace Cultivator

/-- JS string model: a list of Unicode characters. -/
abbrev Str := List Char

/-- Convert a Lean string literal into the JS string model. -/
def str (s : String) : Str := s.toList

/-- Whitespace test used by JS `\s`, `trim`, `toLowerCase` handling
(the ASCII core of the JS whitespace class). -/
def jsIsSpace (c : Char) : Bool :=
  c = ' ' || c = '\t' || c = '\n' || c = '\r' || c = '\x0b' || c = '\x0c'

/-- JS `String.prototype.trim`: drop leading and trailing whitespace. -/
def jsTrim (s : Str) : Str :=
  ((s.dropWhile jsIsSpace).reverse.dropWhile jsIsSpace).reverse

/-- JS `Math.round`: round half toward positive infinity. -/
def jsRound (q : ℚ) : ℤ := ⌊q + 1/2⌋

/-! ## MaturityLevel value object (maturity-level.ts) -/

/-- The four maturity stages (`MaturityLevelEnum`). -/
inductive MaturityLevelEnum : Type
  | seed
  | sprout
  | tree
  | evergreen
deriving DecidableEq, Repr

namespace MaturityLevelEnum

/-- The `minQualityScore` field of `MATURITY_CONFIGS`. -/
def minQualityScore : MaturityLevelEnum → ℚ
  | seed => 0
  | sprout => 40
  | tree => 70
  | evergreen => 90

/-- The `order` field of `MATURITY_CONFIGS`. -/
def levelOrder : MaturityLevelEnum → ℕ
  | seed => 1
  | sprout => 2
  | tree => 3
  | evergreen => 4

/-- The `level` key strings of `MATURITY_CONFIGS`. -/
def levelName : MaturityLevelEnum → Str
  | seed => str "seed"
  | sprout => str "sprout"
  | tree => str "tree"
  | evergreen => str "evergreen"

/-- The `icon` field of `MATURITY_CONFIGS`. -/
def levelIcon : MaturityLevelEnum → Str
  | seed => str "🌱"
  | sprout => str "🌿"
  | tree => str "🌳"
  | evergreen => str "🌲"

/-- The `displayName` field of `MATURITY_CONFIGS`. -/
def levelDisplayName : MaturityLevelEnum → Str
  | seed => str "Seed"
  | sprout => str "Sprout"
  | tree => str "Tree"
  | evergreen => str "Evergreen"

end MaturityLevelEnum

/-- The result of the JS property read `MATURITY_CONFIGS[s]`.
`MATURITY_CONFIGS` is a plain object literal, so bracket lookup walks
the prototype chain: besides the four own config entries, the inherited
`Object.prototype` members whose names are already all-lowercase
(`constructor` and `__proto__`; every other prototype member name has an
uppercase letter and cannot survive `toLowerCase()`) also read back as
truthy values that are not configs; any other string reads `undefined`
(falsy). -/
inductive ConfigLookup : Type
  | config (l : MaturityLevelEnum)
  | inheritedMember
  | missingKey
deriving DecidableEq, Repr

open MaturityLevelEnum in
/-- Key lookup `MATURITY_CONFIGS[s]`, prototype chain included. -/
def lookupMaturityConfig (s : Str) : ConfigLookup :=
  if s = levelName seed then .config seed
  else if s = levelName sprout then .config sprout
  else if s = levelName tree then .config tree
  else if s = levelName evergreen then .config evergreen
  else if s = str "constructor" then .inheritedMember
  else if s = str "__proto__" then .inheritedMember
  else .missingKey

/-- A `MaturityLevel` object as the private constructor can actually
build it from a string key: `this._config = MATURITY_CONFIGS[level]` is
either one of the four proper configs or, through the prototype-chain
quirk, an inherited `Object.prototype` member stored as the config. -/
inductive MaturityLevelValue : Type
  | ofConfig (l : MaturityLevelEnum)
  | ofInherited
deriving DecidableEq, Repr

namespace MaturityLevel

open MaturityLevelEnum

/-- `MaturityLevel.create`: throws only when `MATURITY_CONFIGS[level]`
is falsy; a truthy inherited prototype member passes the check and is
stored as the `_config`. -/
def create (level : Str) : Except Str MaturityLevelValue :=
  match lookupMaturityConfig level with
  | .config l => .ok (.ofConfig l)
  | .inheritedMember => .ok .ofInherited
  | .missingKey => .error (str "Invalid maturity level: " ++ level)

/-- `MaturityLevel.default()` (always the proper seed config). -/
def defaultLevel : MaturityLevelEnum := seed

/-- `MaturityLevel.fromQualityScore`. -/
def fromQualityScore (score : ℚ) : MaturityLevelEnum :=
  if score ≥ minQualityScore evergreen then evergreen
  else if score ≥ minQualityScore tree then tree
  else if score ≥ minQualityScore sprout then sprout
  else seed

end MaturityLevel

/-! ## QualityDimension value object (quality-dimension.ts) -/

/-- The five assessment dimensions (`QualityDimensionType`). -/
inductive QualityDimensionType : Type
  | atomicity
  | connectivity
  | clarity
  | evidence
  | originality
deriving DecidableEq, Repr

namespace QualityDimensionType

/-- The `weight` field of `DIMENSION_CONFIGS`. -/
def weight : QualityDimensionType → ℚ
  | atomicity => 0.25
  | connectivity => 0.25
  | clarity => 0.20
  | evidence => 0.15
  | originality => 0.15

/-- The `displayName` field of `DIMENSION_CONFIGS`. -/
def displayName : QualityDimensionType → Str
  | atomicity => str "Atomicity"
  | connectivity => str "Connectivity"
  | clarity => str "Clarity"
  | evidence => str "Evidence"
  | originality => str "Originality"

/-- The `type` key string itself ('atomicity', ...). -/
def typeName : QualityDimensionType → Str
  | atomicity => str "atomicity"
  | connectivity => str "connectivity"
  | clarity => str "clarity"
  | evidence => str "evidence"
  | originality => str "originality"

end QualityDimensionType

/-- `QualityDimension.getAllTypes()`. -/
def getAllTypes : List QualityDimensionType :=
  [.atomicity, .connectivity, .clarity, .evidence, .originality]

/-- A `QualityDimension` instance: config type, validated score, feedback. -/
structure QualityDimension : Type where
  type : QualityDimensionType
  score : ℚ
  feedback : Str
deriving DecidableEq

/-- `QualityDimension.validateScore`: clamp to [0,100], rounding scores
that are in range. -/
def validateScore (score : ℚ) : ℚ :=
  if score < 0 then 0
  else if score > 100 then 100
  else (jsRound score : ℚ)

/-- `QualityDimension.create` (the runtime type check cannot fail for a
value of the enum type, so creation is total). -/
def QualityDimension.create (type : QualityDimensionType) (score : ℚ)
    (feedback : Str) : QualityDimension :=
  ⟨type, validateScore score, feedback⟩

/-- `weightedScore` getter. -/
def QualityDimension.weightedScore (d : QualityDimension) : ℚ :=
  d.score * d.type.weight

/-! ## QualityScore value object (quality-score.ts) -/

/-- JS `Map.set`: overwrite in place if the key exists, else append
(keeps insertion order, as `Map` iteration does). -/
def mapSet {K V : Type} [DecidableEq K] :
    List (K × V) → K → V → List (K × V)
  | [], k, v => [(k, v)]
  | (k', v') :: t, k, v =>
    if k' = k then (k, v) :: t else (k', v') :: mapSet t k v

/-- JS `Map.get`. -/
def mapGet {K V : Type} [DecidableEq K] (m : List (K × V)) (k : K) :
    Option V :=
  (m.find? (fun e => e.1 = k)).map (·.2)

/-- The `_dimensions` map built in the `QualityScore` constructor
(`dimensions.forEach((d) => this._dimensions.set(d.type, d))`). -/
def buildDimMap (dimensions : List QualityDimension) :
    List (QualityDimensionType × QualityDimension) :=
  dimensions.foldl (fun m d => mapSet m d.type d) []

/-- `QualityScore.calculateTotalScore`: round the sum of the weighted
scores of the map entries. -/
def calculateTotalScore
    (m : List (QualityDimensionType × QualityDimension)) : ℤ :=
  jsRound (m.foldl (fun acc e => acc + e.2.weightedScore) 0)

/-- A constructed `QualityScore`: the dimension map; `totalScore` is
computed from it (the TS constructor caches `calculateTotalScore()`). -/
structure QualityScore : Type where
  dims : List (QualityDimensionType × QualityDimension)
deriving DecidableEq

/-- `totalScore` getter. -/
def QualityScore.totalScore (qs : QualityScore) : ℤ :=
  calculateTotalScore qs.dims

/-- `getAllDimensions()`: the map values in insertion order. -/
def QualityScore.getAllDimensions (qs : QualityScore) :
    List QualityDimension :=
  qs.dims.map (·.2)

/-- `QualityScore.create`: throw if any catalog type is missing from the
supplied list, else build the score. -/
def QualityScore.create (dimensions : List QualityDimension) :
    Except Str QualityScore :=
  match getAllTypes.find? (fun t => !(dimensions.map (·.type)).contains t) with
  | some t => .error (str "Missing quality dimension: " ++ t.typeName)
  | none => .ok ⟨buildDimMap dimensions⟩

/-- `QualityScore.fromScores`: build one dimension per catalog type (in
`getAllTypes()` order) and call `create`. -/
def QualityScore.fromScores
    (atomicity connectivity clarity evidence originality : ℚ × Str) :
    Except Str QualityScore :=
  QualityScore.create
    [QualityDimension.create .atomicity atomicity.1 atomicity.2,
     QualityDimension.create .connectivity connectivity.1 connectivity.2,
     QualityDimension.create .clarity clarity.1 clarity.2,
     QualityDimension.create .evidence evidence.1 evidence.2,
     QualityDimension.create .originality originality.1 originality.2]

/-- `getGrade()` on the total score. -/
def scoreGrade (total : ℤ) : Str :=
  if total ≥ 90 then str "A"
  else if total ≥ 80 then str "B"
  else if total ≥ 70 then str "C"
  else if total ≥ 60 then str "D"
  else str "F"

end Cultivator

namespace Cultivator

/-! ## Helper lemmas on rounding and validated scores -/

lemma jsRound_nonneg {q : ℚ} (h : 0 ≤ q) : 0 ≤ jsRound q := by
  unfold jsRound
  exact Int.floor_nonneg.mpr (by linarith)

lemma jsRound_le_100 {q : ℚ} (h : q ≤ 100) : jsRound q ≤ 100 := by
  unfold jsRound
  have := Int.floor_lt.mpr (by push_cast; linarith : q + 1/2 < ((101:ℤ):ℚ))
  omega

lemma validateScore_nonneg (s : ℚ) : 0 ≤ validateScore s := by
  unfold validateScore
  split_ifs with h1 h2
  · norm_num
  · norm_num
  · exact_mod_cast jsRound_nonneg (by linarith)

lemma validateScore_le_100 (s : ℚ) : validateScore s ≤ 100 := by
  unfold validateScore
  split_ifs with h1 h2
  · norm_num
  · norm_num
  · exact_mod_cast jsRound_le_100 (by linarith)

lemma jsRound_natCast (n : ℕ) : jsRound (n : ℚ) = n := by
  unfold jsRound
  rw [Int.floor_eq_iff]
  constructor
  · push_cast
    linarith
  · push_cast
    linarith


/-- Rounding a non-negative integer-valued rational is the identity;
specialized to validated natural scores. -/
lemma validateScore_natCast {n : ℕ} (h : n ≤ 100) :
    validateScore (n : ℚ) = n := by
  unfold validateScore
  split_ifs with h1 h2
  · exact absurd h1 (not_lt.mpr (by positivity))
  · exact absurd h2 (by exact_mod_cast not_lt.mpr (by exact_mod_cast h))
  · rw [jsRound_natCast]
    norm_cast

/-- C4: For every set of five dimension scores (one per catalog type, raw
scores any rationals), `QualityScore.create` succeeds and the resulting
`totalScore` equals `round(Σ weight·clamp(score))` with weights
0.25/0.25/0.20/0.15/0.15, where each raw score is clamped to [0,100] and
rounded at dimension construction; the total is an integer in [0,100]. -/
theorem C4_totalScore_formula (a b c d e : ℚ) (fa fb fc fd fe : Str) :
    ∃ qs : QualityScore,
      QualityScore.fromScores (a, fa) (b, fb) (c, fc) (d, fd) (e, fe) =
        .ok qs ∧
      qs.totalScore = jsRound (0.25 * validateScore a +
        0.25 * validateScore b + 0.20 * validateScore c +
        0.15 * validateScore d + 0.15 * validateScore e) ∧
      0 ≤ qs.totalScore ∧ qs.totalScore ≤ 100 := by
  refine ⟨⟨buildDimMap
    [QualityDimension.create .atomicity a fa,
     QualityDimension.create .connectivity b fb,
     QualityDimension.create .clarity c fc,
     QualityDimension.create .evidence d fd,
     QualityDimension.create .originality e fe]⟩, ?_, ?_, ?_, ?_⟩
  · simp [QualityScore.fromScores, QualityScore.create, getAllTypes,
      QualityDimension.create]
  · simp only [QualityScore.totalScore, calculateTotalScore, buildDimMap,
      QualityDimension.create, QualityDimension.weightedScore, mapSet,
      List.foldl, QualityDimensionType.weight]
    norm_num
    ring_nf
  · apply jsRound_nonneg
    have := validateScore_nonneg a
    have := validateScore_nonneg b
    have := validateScore_nonneg c
    have := validateScore_nonneg d
    have := validateScore_nonneg e
    simp only [QualityScore.totalScore, calculateTotalScore, buildDimMap,
      QualityDimension.create, QualityDimension.weightedScore, mapSet,
      List.foldl, QualityDimensionType.weight]
    norm_num
    nlinarith
  · apply jsRound_le_100
    have := validateScore_le_100 a
    have := validateScore_le_100 b
    have := validateScore_le_100 c
    have := validateScore_le_100 d
    have := validateScore_le_100 e
    have := validateScore_nonneg a
    have := validateScore_nonneg b
    have := validateScore_nonneg c
    have := validateScore_nonneg d
    have := validateScore_nonneg e
    simp only [QualityScore.totalScore, calculateTotalScore, buildDimMap,
      QualityDimension.create, QualityDimension.weightedScore, mapSet,
      List.foldl, QualityDimensionType.weight]
    norm_num
    nlinarith

open MaturityLevelEnum in
/-- C5: `fromQualityScore` returns the highest stage whose threshold is
at most the score (thresholds 0/40/70/90), is monotone in the score, and
maps each stage's own threshold back to that stage. -/
theorem C5_fromScore_spec :
    (∀ s t : ℚ, s ≤ t →
      levelOrder (MaturityLevel.fromQualityScore s) ≤
        levelOrder (MaturityLevel.fromQualityScore t)) ∧
    (∀ l, MaturityLevel.fromQualityScore (minQualityScore l) = l) ∧
    (∀ s l, minQualityScore l ≤ s →
      levelOrder l ≤ levelOrder (MaturityLevel.fromQualityScore s)) ∧
    (∀ s : ℚ, (∃ l, minQualityScore l ≤ s) →
      minQualityScore (MaturityLevel.fromQualityScore s) ≤ s) := by
  refine ⟨?_, ?_, ?_, ?_⟩
  · intro s t hst
    unfold MaturityLevel.fromQualityScore
    split_ifs <;>
      simp_all [levelOrder, minQualityScore] <;> linarith
  · intro l
    cases l <;>
      simp [MaturityLevel.fromQualityScore, minQualityScore] <;> norm_num
  · intro s l hl
    unfold MaturityLevel.fromQualityScore
    cases l <;> split_ifs <;>
      simp_all [levelOrder, minQualityScore]
  · intro s hex
    obtain ⟨l, hl⟩ := hex
    have h0 : (0:ℚ) ≤ s := le_trans (by cases l <;> norm_num [minQualityScore]) hl
    unfold MaturityLevel.fromQualityScore
    split_ifs <;> simp_all [minQualityScore]

/-- C8: `QualityScore.create` fails with a missing-dimension error if and
only if some catalog dimension type is absent from the supplied list;
duplicates and extras are not rejected, and with all five types present
construction succeeds. -/
theorem C8_create_missing_iff (dimensions : List QualityDimension) :
    (∃ err, QualityScore.create dimensions = .error err) ↔
      ∃ t : QualityDimensionType, t ∉ dimensions.map (·.type) := by
  unfold QualityScore.create
  rcases hfind : getAllTypes.find?
      (fun t => !(dimensions.map (·.type)).contains t) with _ | t
  · rw [hfind]
    simp only [List.find?_eq_none] at hfind
    constructor
    · rintro ⟨err, herr⟩
      exact absurd herr (by simp)
    · rintro ⟨t, ht⟩
      have hmem : t ∈ getAllTypes := by cases t <;> simp [getAllTypes]
      have h2 := hfind t hmem
      exact absurd (by simpa using h2) ht
  · rw [hfind]
    have h2 := List.find?_some hfind
    refine ⟨fun _ => ⟨t, ?_⟩, fun _ => ⟨_, rfl⟩⟩
    simpa using h2

/-- `UpdateMaturityInput`. -/
structure UpdateMaturityInput : Type where
  noteId : Str
  currentMaturity : MaturityLevelEnum
  targetMaturity : Option MaturityLevelEnum
  qualityScore : Option QualityScore
  forceUpdate : Bool

/-- `UpdateMaturityOutput`. -/
structure UpdateMaturityOutput : Type where
  success : Bool
  previousLevel : MaturityLevelEnum
  newLevel : MaturityLevelEnum
  isUpgrade : Bool
  error : Option Str

open MaturityLevelEnum in
/-- `UpdateMaturityUseCase.execute`, given the outcome the repository's
`updateMaturityLevel` would have (`repoResult`). The returned `Bool`
records whether the repository write was invoked at all. -/
def executeUpdateMaturity (input : UpdateMaturityInput)
    (repoResult : Except Str Unit) : UpdateMaturityOutput × Bool :=
  match (match input.targetMaturity with
    | some t => some t
    | none =>
      match input.qualityScore with
      | some qs => some (MaturityLevel.fromQualityScore (qs.totalScore : ℚ))
      | none => none) with
  | none =>
    (⟨false, input.currentMaturity, input.currentMaturity, false,
      some (str "target maturity or quality score required")⟩, false)
  | some newLevel =>
    let isUpgrade : Bool :=
      levelOrder input.currentMaturity < levelOrder newLevel
    let isDowngrade : Bool :=
      levelOrder newLevel < levelOrder input.currentMaturity
    let isSame : Bool := newLevel = input.currentMaturity
    if isSame then
      (⟨true, input.currentMaturity, input.currentMaturity, false, none⟩,
        false)
    else if isDowngrade && !input.forceUpdate then
      (⟨false, input.currentMaturity, input.currentMaturity, false,
        some (str "cannot downgrade maturity")⟩, false)
    else if isUpgrade &&
        (match input.qualityScore with
          | some qs =>
            decide ((qs.totalScore : ℚ) < minQualityScore newLevel) &&
              !input.forceUpdate
          | none => false) then
      (⟨false, input.currentMaturity, input.currentMaturity, false,
        some (str "quality score below target threshold")⟩, false)
    else
      match repoResult with
      | .ok _ =>
        (⟨true, input.currentMaturity, newLevel, isUpgrade, none⟩, true)
      | .error e =>
        (⟨false, input.currentMaturity, input.currentMaturity, false,
          some (str "maturity update failed: " ++ e)⟩, true)

open MaturityLevelEnum in
/-- C6: an upgrade request (explicit target above the current stage) with
an accompanying quality score below the target's threshold and no force
flag is rejected as a structured failure, and the repository write is
never invoked. -/
theorem C6_upgrade_below_threshold_rejected (input : UpdateMaturityInput)
    (repoResult : Except Str Unit) (t : MaturityLevelEnum)
    (qs : QualityScore)
    (htarget : input.targetMaturity = some t)
    (hq : input.qualityScore = some qs)
    (hup : levelOrder input.currentMaturity < levelOrder t)
    (hlt : (qs.totalScore : ℚ) < minQualityScore t)
    (hforce : input.forceUpdate = false) :
    (executeUpdateMaturity input repoResult).1.success = false ∧
    (executeUpdateMaturity input repoResult).1.newLevel =
      input.currentMaturity ∧
    (executeUpdateMaturity input repoResult).1.error.isSome = true ∧
    (executeUpdateMaturity input repoResult).2 = false := by
  have hne : t ≠ input.currentMaturity := by
    intro h
    rw [h] at hup
    omega
  have hnd : ¬(levelOrder t < levelOrder input.currentMaturity) := by omega
  simp [executeUpdateMaturity, htarget, hq, hforce, hne, hnd, hup, hlt]

open MaturityLevelEnum in
/-- C7: a downgrade request (explicit target below the current stage)
without the force flag returns a structured failure (not an exception),
and the repository write is never invoked, leaving the stored stage
untouched. -/
theorem C7_downgrade_rejected (input : UpdateMaturityInput)
    (repoResult : Except Str Unit) (t : MaturityLevelEnum)
    (htarget : input.targetMaturity = some t)
    (hdown : levelOrder t < levelOrder input.currentMaturity)
    (hforce : input.forceUpdate = false) :
    (executeUpdateMaturity input repoResult).1.success = false ∧
    (executeUpdateMaturity input repoResult).1.newLevel =
      input.currentMaturity ∧
    (executeUpdateMaturity input repoResult).1.error.isSome = true ∧
    (executeUpdateMaturity input repoResult).2 = false := by
  have hne : t ≠ input.currentMaturity := by
    intro h
    rw [h] at hdown
    omega
  simp [executeUpdateMaturity, htarget, hforce, hne, hdown]

/-- A concrete quality score with all five dimensions at 80 points. -/
def sampleQS80 : QualityScore :=
  ⟨buildDimMap
    [⟨.atomicity, 80, []⟩, ⟨.connectivity, 80, []⟩, ⟨.clarity, 80, []⟩,
     ⟨.evidence, 80, []⟩, ⟨.originality, 80, []⟩]⟩

lemma sampleQS80_total : sampleQS80.totalScore = 80 := by
  simp only [sampleQS80, QualityScore.totalScore, calculateTotalScore,
    buildDimMap, mapSet, List.foldl, reduceCtorEq, if_false,
    QualityDimension.weightedScore, QualityDimensionType.weight]
  norm_num [jsRound, Rat.floor_def]

open MaturityLevelEnum in
/-- Witness for C6: upgrading tree → evergreen with a total score of 80
(< 90) and no force flag fails without touching the repository. -/
theorem C6_witness :
    (⟨str "n", tree, some evergreen, some sampleQS80,
        false⟩ : UpdateMaturityInput).targetMaturity = some evergreen ∧
    (sampleQS80.totalScore : ℚ) < minQualityScore evergreen ∧
    ((executeUpdateMaturity
        ⟨str "n", tree, some evergreen, some sampleQS80, false⟩
        (.ok ())).1.success = false ∧
      (executeUpdateMaturity
        ⟨str "n", tree, some evergreen, some sampleQS80, false⟩
        (.ok ())).2 = false) := by
  refine ⟨rfl, ?_, ?_⟩
  · rw [sampleQS80_total]
    norm_num [minQualityScore]
  · have := C6_upgrade_below_threshold_rejected
      ⟨str "n", tree, some evergreen, some sampleQS80, false⟩ (.ok ())
      evergreen sampleQS80 rfl rfl (by simp [levelOrder])
      (by rw [sampleQS80_total]; norm_num [minQualityScore]) rfl
    exact ⟨this.1, this.2.2.2⟩

open MaturityLevelEnum in
/-- Witness for C7: requesting tree → seed without force fails without
touching the repository. -/
theorem C7_witness :
    ((executeUpdateMaturity
        ⟨str "n", tree, some seed, none, false⟩ (.ok ())).1.success =
          false ∧
      (executeUpdateMaturity
        ⟨str "n", tree, some seed, none, false⟩ (.ok ())).1.error.isSome =
          true ∧
      (executeUpdateMaturity
        ⟨str "n", tree, some seed, none, false⟩ (.ok ())).2 = false) := by
  have := C7_downgrade_rejected
    ⟨str "n", tree, some seed, none, false⟩ (.ok ()) seed rfl
    (by simp [levelOrder]) rfl
  exact ⟨this.1, this.2.2.1, this.2.2.2⟩

/-! ## AssessmentHistoryService (assessment-history-service.ts) -/

/-- `AssessmentRecord` (assessment-record.ts). `dimensionScores` is a
possibly-partial record of per-dimension scores, modelled as a partial
function (the `!== undefined` check in `calculateDelta` shows keys may be
absent at runtime). -/
structure AssessmentRecord : Type where
  id : Str
  notePath : Str
  totalScore : ℚ
  dimensionScores : QualityDimensionType → Option ℚ
  maturityLevel : MaturityLevelEnum
  assessedAt : ℚ

/-- The in-memory `history` map, keyed by note path (absent key reads as
the empty list, matching `this.history.get(path) ?? []`). -/
def HistoryMap : Type := Str → List AssessmentRecord

/-- `AssessmentHistoryService.addRecord` (state transition on the map):
append the record, then drop oldest entries from the front while the list
exceeds `maxPerNote` (`records.splice(0, records.length - maxPerNote)`). -/
def addRecord (maxPerNote : ℕ) (h : HistoryMap) (r : AssessmentRecord) :
    HistoryMap :=
  let records := h r.notePath ++ [r]
  let trimmed :=
    if records.length > maxPerNote then
      records.drop (records.length - maxPerNote)
    else records
  fun p => if p = r.notePath then trimmed else h p

/-- `getLatestRecord`. -/
def getLatestRecord (h : HistoryMap) (notePath : Str) :
    Option AssessmentRecord :=
  (h notePath).getLast?

/-- `ScoreDelta` (assessment-record.ts). -/
structure ScoreDelta : Type where
  totalDelta : ℚ
  dimensionDeltas : QualityDimensionType → Option ℚ
  previousAssessedAt : ℚ

/-- `calculateDelta`: `null` without a previous record; otherwise the
total difference plus per-dimension differences for the keys present in
both records. -/
def calculateDelta (h : HistoryMap) (notePath : Str)
    (current : AssessmentRecord) : Option ScoreDelta :=
  match getLatestRecord h notePath with
  | none => none
  | some previous =>
    some
      { totalDelta := current.totalScore - previous.totalScore
        dimensionDeltas := fun dim =>
          match current.dimensionScores dim, previous.dimensionScores dim with
          | some score, some prevScore => some (score - prevScore)
          | _, _ => none
        previousAssessedAt := previous.assessedAt }

/-- `initialize`, applied to the result of the injected load callback
(`Except` error = the callback threw): the code awaits the callback with
no try/catch, so a thrown error propagates; `null` data gives an empty
map; otherwise the map holds the loaded entries. -/
def initializeHistory
    (loadResult : Except Str (Option (List (Str × List AssessmentRecord)))) :
    Except Str HistoryMap :=
  match loadResult with
  | .error e => .error e
  | .ok none => .ok (fun _ => [])
  | .ok (some data) =>
    .ok (data.foldl (fun h e => fun p => if p = e.1 then e.2 else h p)
      (fun _ => []))

/-! ## Theorems for the history service -/

lemma addRecord_length_le (maxPerNote : ℕ) (h : HistoryMap)
    (r : AssessmentRecord) (p : Str)
    (hp : (h p).length ≤ maxPerNote) :
    ((addRecord maxPerNote h r) p).length ≤ maxPerNote := by
  unfold addRecord
  by_cases hpr : p = r.notePath
  · rw [if_pos hpr, hpr] at *
    by_cases hlen : (h r.notePath ++ [r]).length > maxPerNote
    · rw [if_pos hlen, List.length_drop]
      omega
    · rw [if_neg hlen]
      simp at hlen
      simpa using hlen
  · rwa [if_neg hpr]

lemma addRecord_eq_drop (maxPerNote : ℕ) (h : HistoryMap)
    (r : AssessmentRecord) :
    (addRecord maxPerNote h r) r.notePath =
      (h r.notePath ++ [r]).drop
        ((h r.notePath ++ [r]).length - maxPerNote) := by
  unfold addRecord
  rw [if_pos rfl]
  by_cases hlen : (h r.notePath ++ [r]).length > maxPerNote
  · rw [if_pos hlen]
  · rw [if_neg hlen]
    have h0 : (h r.notePath ++ [r]).length - maxPerNote = 0 := by omega
    rw [h0, List.drop_zero]

lemma foldl_addRecord_single_doc (maxPerNote : ℕ) (doc : Str) :
    ∀ (rs : List AssessmentRecord) (h : HistoryMap),
      (∀ r ∈ rs, r.notePath = doc) → (h doc).length ≤ maxPerNote →
      (rs.foldl (addRecord maxPerNote) h) doc =
        (h doc ++ rs).drop ((h doc ++ rs).length - maxPerNote) := by
  intro rs
  induction rs with
  | nil =>
    intro h _ hlen
    have h0 : (h doc ++ []).length - maxPerNote = 0 := by
      simp
      omega
    rw [h0, List.drop_zero, List.append_nil]
    rfl
  | cons r rs ih =>
    intro h hall hlen
    have hr : r.notePath = doc := hall r (by simp)
    rw [List.foldl_cons]
    have hlen' : ((addRecord maxPerNote h r) doc).length ≤ maxPerNote :=
      addRecord_length_le _ _ _ _ hlen
    rw [ih _ (fun x hx => hall x (by simp [hx])) hlen']
    have hd : (addRecord maxPerNote h r) doc =
        (h doc ++ [r]).drop ((h doc ++ [r]).length - maxPerNote) := by
      rw [← hr]
      exact addRecord_eq_drop maxPerNote h r
    rw [hd]
    have h1 : ((h doc ++ [r]) ++ rs).drop
          ((h doc ++ [r]).length - maxPerNote) =
        (h doc ++ [r]).drop ((h doc ++ [r]).length - maxPerNote) ++ rs := by
      rw [List.drop_append_eq_append_drop]
      have h2 : (h doc ++ [r]).length - maxPerNote - (h doc ++ [r]).length =
          0 := by
        omega
      rw [h2, List.drop_zero]
    rw [← h1, List.drop_drop]
    have h3 : h doc ++ r :: rs = (h doc ++ [r]) ++ rs := by simp
    rw [h3]
    congr 1
    have h4 := List.length_drop ((h doc ++ [r]).length - maxPerNote)
      ((h doc ++ [r]) ++ rs)
    simp only [List.length_append, List.length_cons] at *
    omega

/-- C2: starting from an empty history, inserting `maxPerNote + k`
records for one document leaves exactly the most recent `maxPerNote`
records, in their original relative order. -/
theorem C2_history_cap (maxPerNote k : ℕ) (rs : List AssessmentRecord)
    (doc : Str)
    (hall : ∀ r ∈ rs, r.notePath = doc)
    (hlen : rs.length = maxPerNote + k) :
    (rs.foldl (addRecord maxPerNote) (fun _ => [])) doc = rs.drop k ∧
    (rs.drop k).length = maxPerNote := by
  have hbase : ((fun _ => ([] : List AssessmentRecord)) doc).length ≤
      maxPerNote := by
    simp
  have h1 := foldl_addRecord_single_doc maxPerNote doc rs
    (fun _ => []) hall hbase
  simp only [List.nil_append] at h1
  rw [h1, hlen]
  constructor
  · congr 1
    omega
  · rw [List.length_drop]
    omega

/-- A concrete assessment record on note path "a" with the given id. -/
def mkRec (i : ℚ) : AssessmentRecord :=
  ⟨[], str "a", i, fun _ => none, .seed, 0⟩

/-- Witness for C2: with `maxPerNote = 2`, inserting three records keeps
exactly the last two, in order. -/
theorem C2_witness :
    (∀ r ∈ [mkRec 1, mkRec 2, mkRec 3], r.notePath = str "a") ∧
    ([mkRec 1, mkRec 2, mkRec 3].length = 2 + 1) ∧
    (([mkRec 1, mkRec 2, mkRec 3].foldl (addRecord 2) (fun _ => []))
        (str "a") = [mkRec 1, mkRec 2, mkRec 3].drop 1 ∧
      ([mkRec 1, mkRec 2, mkRec 3].drop 1).length = 2) :=
  ⟨by simp [mkRec], rfl,
    C2_history_cap 2 1 [mkRec 1, mkRec 2, mkRec 3] (str "a")
      (by simp [mkRec]) rfl⟩

/-- C3: `calculateDelta` returns none exactly when no record is stored;
otherwise `totalDelta` is the current total minus the most recently added
record's total, and a per-dimension delta exists exactly for the
dimension keys present in both records (an absent key is skipped, not
treated as zero). -/
theorem C3_calculateDelta_spec :
    (∀ (h : HistoryMap) (p : Str) (current : AssessmentRecord),
      h p = [] → calculateDelta h p current = none) ∧
    (∀ (h : HistoryMap) (p : Str) (current previous : AssessmentRecord),
      getLatestRecord h p = some previous →
      ∃ δ, calculateDelta h p current = some δ ∧
        δ.totalDelta = current.totalScore - previous.totalScore ∧
        δ.previousAssessedAt = previous.assessedAt ∧
        (∀ dim c pv, current.dimensionScores dim = some c →
          previous.dimensionScores dim = some pv →
          δ.dimensionDeltas dim = some (c - pv)) ∧
        (∀ dim, current.dimensionScores dim = none ∨
            previous.dimensionScores dim = none →
          δ.dimensionDeltas dim = none)) := by
  constructor
  · intro h p current hp
    unfold calculateDelta getLatestRecord
    rw [hp]
    rfl
  · intro h p current previous hprev
    unfold calculateDelta
    rw [hprev]
    refine ⟨_, rfl, rfl, rfl, ?_, ?_⟩
    · intro dim c pv hc hpv
      simp only [hc, hpv]
    · intro dim hnone
      rcases hnone with hn | hn <;> simp only [hn] <;>
        rcases hx : current.dimensionScores dim with _ | v <;> rfl

/-- C9 counterexample: `initialize()` awaits the load callback with no
try/catch, so a throwing load callback propagates the failure instead of
producing an initialized empty history map. -/
theorem C9_counterexample :
    initializeHistory (.error (str "boom")) ≠
      .ok (fun _ => ([] : List AssessmentRecord)) := by
  unfold initializeHistory
  intro h
  exact Except.noConfusion h

/-- C9 (amended): a load callback that returns no data yields an
initialized empty history map, while a load callback that throws has its
failure propagate out of `initialize` unhandled. -/
theorem C9_initialize_amended :
    (initializeHistory (.ok none) =
      .ok (fun _ => ([] : List AssessmentRecord))) ∧
    (∀ e, initializeHistory (.error e) = .error e) :=
  ⟨rfl, fun _ => rfl⟩

/-! ## String utilities for the assessment callout (cultivator-view.ts)

The encoder/decoder pair works on JS strings; these model the string
operations used there (`split`, `join`, `trim`, `includes`,
`startsWith`, regex digit matching, template interpolation of numbers).
-/

/-- JS `String.prototype.split(sep)` for a one-character separator. -/
def splitOnChar (sep : Char) : Str → List Str
  | [] => [[]]
  | c :: cs =>
    match splitOnChar sep cs, decide (c = sep) with
    | r, true => [] :: r
    | [], false => [[c]]
    | h :: t, false => (c :: h) :: t

/-- JS `Array.prototype.join(sep)` for a one-character separator. -/
def joinWith (sep : Char) : List Str → Str
  | [] => []
  | [l] => l
  | l :: l' :: t => l ++ sep :: joinWith sep (l' :: t)

/-- Removal of the leading `/^>\s?/` quote marker: a `>` and at most one
following whitespace character. -/
def stripQuote : Str → Str
  | '>' :: c :: t => if jsIsSpace c then t else c :: t
  | '>' :: [] => []
  | s => s

/-- JS `String.prototype.startsWith` for a one-character argument
(`l.startsWith('|')`). -/
def startsWithChar (c : Char) : Str → Bool
  | [] => false
  | d :: _ => d = c

/-- Whether `s` begins with the sequence `pat`. -/
def startsWithSeq : Str → Str → Bool
  | [], _ => true
  | _ :: _, [] => false
  | c :: p, d :: s => c = d && startsWithSeq p s

/-- JS `String.prototype.includes(pat)`. -/
def hasSub (pat : Str) : Str → Bool
  | [] => startsWithSeq pat []
  | c :: t => startsWithSeq pat (c :: t) || hasSub pat t

/-- The ASCII digit class of the regex `\d`. -/
def isDigitChar (c : Char) : Bool := 48 ≤ c.toNat && c.toNat ≤ 57

/-- Regex `match(/(\d+)/)`: the first maximal run of digits, if any. -/
def firstDigitRun : Str → Option Str
  | [] => none
  | c :: t =>
    if isDigitChar c then some ((c :: t).takeWhile isDigitChar)
    else firstDigitRun t

/-- JS `parseInt` on a digit run. -/
def strToNat (s : Str) : ℕ :=
  s.foldl (fun a c => 10 * a + (c.toNat - 48)) 0

/-- Decimal digit characters. -/
def digitChar : ℕ → Char
  | 0 => '0'
  | 1 => '1'
  | 2 => '2'
  | 3 => '3'
  | 4 => '4'
  | 5 => '5'
  | 6 => '6'
  | 7 => '7'
  | 8 => '8'
  | _ => '9'

/-- Decimal printing of a natural number (JS template interpolation). -/
def natToStr (n : ℕ) : Str :=
  if h : n < 10 then [digitChar n]
  else natToStr (n / 10) ++ [digitChar (n % 10)]
decreasing_by
  exact Nat.div_lt_self (by omega) (by omega)

/-- Decimal printing of an integer. -/
def intToStr (n : ℤ) : Str :=
  if n < 0 then '-' :: natToStr n.natAbs else natToStr n.toNat

/-- JS number printing restricted to the values the callout generator
emits: validated scores are integers (denominator 1), so only the
integer case is exercised; a fractional value is printed as num/den. -/
def ratToStr (q : ℚ) : Str :=
  if q.den = 1 then intToStr q.num
  else intToStr q.num ++ '/' :: natToStr q.den

/-- `suggestion.replace(/\|/g, '\\|').replace(/\n/g, ' ')`. -/
def escapePipesNewlines : Str → Str
  | [] => []
  | c :: t =>
    if c = '|' then '\\' :: '|' :: escapePipesNewlines t
    else if c = '\n' then ' ' :: escapePipesNewlines t
    else c :: escapePipesNewlines t

/-- `feedback.length > 100 ? feedback.substring(0, 100) + '...' : feedback`. -/
def truncateFeedback (s : Str) : Str :=
  if s.length > 100 then s.take 100 ++ str "..." else s

/-- `cells[2].replace(/\\\|/g, '|')`. -/
def unescapePipes : Str → Str
  | [] => []
  | '\\' :: '|' :: t => '|' :: unescapePipes t
  | c :: t => c :: unescapePipes t

/-! ## NoteAssessment and the callout encoder/decoder -/

/-- Improvement priority. -/
inductive SuggestionPriority : Type
  | high
  | medium
  | low
deriving DecidableEq, Repr

/-- `ImprovementSuggestion` (fields used by the callout code). -/
structure ImprovementSuggestion : Type where
  dimension : Str
  priority : SuggestionPriority
  suggestion : Str
  example? : Option Str

/-- `NoteAssessment` (fields relevant to the callout round trip).
`recommendedMaturity` is always computed by `NoteAssessment.create`, so
the encoder's truthiness check on it always passes. -/
structure NoteAssessment : Type where
  noteId : Str
  notePath : Str
  qualityScore : QualityScore
  currentMaturity : MaturityLevelEnum
  recommendedMaturity : MaturityLevelEnum
  improvements : List ImprovementSuggestion

/-- `NoteAssessment.create`: derives `recommendedMaturity` from the
quality score's total. -/
def NoteAssessment.create (noteId notePath : Str) (qs : QualityScore)
    (currentMaturity : MaturityLevelEnum)
    (improvements : List ImprovementSuggestion) : NoteAssessment :=
  ⟨noteId, notePath, qs,
    currentMaturity,
    MaturityLevel.fromQualityScore (qs.totalScore : ℚ),
    improvements⟩

/-- `getScoreForDimension`: look the display name up among the score's
dimensions, defaulting to 0 (the local `dimensionMap` in the source is
never read). -/
def getScoreForDimension (qs : QualityScore) (dimensionName : Str) : ℚ :=
  ((qs.getAllDimensions.find?
      (fun d => d.type.displayName = dimensionName)).map (·.score)).getD 0

/-- One table row of the callout body (after the `> ` quote marker):
`| ${imp.dimension} | ${score}pts | ${truncatedFeedback} |`. -/
def calloutRow (a : NoteAssessment) (imp : ImprovementSuggestion) : Str :=
  str "| " ++ imp.dimension ++ str " | " ++
    ratToStr (getScoreForDimension a.qualityScore imp.dimension) ++
    str "pts | " ++
    truncateFeedback (escapePipesNewlines imp.suggestion) ++ str " |"

/-- The title line of the callout. -/
def calloutTitleLine (date : Str) : Str :=
  str "> [!assessment]- 📊 Quality Assessment Results (" ++ date ++
    str ")"

/-- The total-score line of the callout. -/
def calloutTotalLine (total : ℤ) : Str :=
  str "> **Total Score**: " ++ intToStr total ++ str "pts (" ++
    scoreGrade total ++ str ")"

/-- The recommended-maturity line of the callout. -/
def calloutMaturityLine (m : MaturityLevelEnum) : Str :=
  str "> **Recommended Maturity**: " ++ MaturityLevelEnum.levelIcon m ++
    str " " ++ MaturityLevelEnum.levelDisplayName m

/-- The lines pushed by `generateAssessmentCallout` (`date` is the
clock-dependent ISO date prefix). -/
def calloutLines (a : NoteAssessment) (date : Str) : List Str :=
  [calloutTitleLine date,
    calloutTotalLine a.qualityScore.totalScore,
    calloutMaturityLine a.recommendedMaturity,
    str ">",
    str "> | Dimension | Score | Feedback |",
    str "> |-----------|-------|----------|"] ++
  a.improvements.map (fun imp => str "> " ++ calloutRow a imp)

/-- `generateAssessmentCallout` (for a present assessment). -/
def generateAssessmentCallout (a : NoteAssessment) (date : Str) : Str :=
  joinWith '\n' (calloutLines a date)

/-- The `forEach` body over the table lines: update the
`dimensionScores` object and push onto `improvements`. -/
def parseTableLine (acc : List (Str × (ℕ × Str)) × List ImprovementSuggestion)
    (line : Str) :
    List (Str × (ℕ × Str)) × List ImprovementSuggestion :=
  let cells := ((splitOnChar '|' line).map jsTrim).filter (fun c => !c.isEmpty)
  match cells with
  | dimension :: scoreCell :: feedbackCell :: _ =>
    let score :=
      match firstDigitRun scoreCell with
      | some run => strToNat run
      | none => 0
    let feedback := unescapePipes feedbackCell
    let priority : SuggestionPriority :=
      if score ≥ 80 then .low else if score ≥ 60 then .medium else .high
    (mapSet acc.1 dimension (score, feedback),
      acc.2 ++ [⟨dimension, priority, feedback, none⟩])
  | _ => acc

/-- The filter selecting table rows among the stripped callout lines:
`l.startsWith('|') && !l.includes('---') && !l.includes('Dimension')`. -/
def calloutLinePred (l : Str) : Bool :=
  startsWithChar '|' l && !hasSub (str "---") l &&
    !hasSub (str "Dimension") l

/-- The tail of `parseAssessmentCallout` operating on the filtered table
lines: accumulate the `dimensionScores` object and `improvements` array,
then rebuild the quality score (defaulting each missing dimension to
score 0 and empty feedback) and assemble the display assessment. -/
def parseCore (currentFilePath : Str) (tableLines : List Str) :
    Option NoteAssessment :=
  let parsed := tableLines.foldl parseTableLine ([], [])
  let dimensionScores := parsed.1
  let improvements := parsed.2
  let lookup := fun (key : Str) =>
    (mapGet dimensionScores key).getD (0, [])
  match QualityScore.fromScores
      (((lookup (str "Atomicity")).1 : ℚ), (lookup (str "Atomicity")).2)
      (((lookup (str "Connectivity")).1 : ℚ), (lookup (str "Connectivity")).2)
      (((lookup (str "Clarity")).1 : ℚ), (lookup (str "Clarity")).2)
      (((lookup (str "Evidence")).1 : ℚ), (lookup (str "Evidence")).2)
      (((lookup (str "Originality")).1 : ℚ), (lookup (str "Originality")).2)
      with
  | .ok qualityScore =>
    some (NoteAssessment.create currentFilePath currentFilePath
      qualityScore MaturityLevel.defaultLevel improvements)
  | .error _ => none

/-- `parseAssessmentCallout`. The `totalScore` and `recommendedMaturity`
locals parsed from their lines are dead in the source (the result is
rebuilt from the table via `QualityScore.fromScores` and
`NoteAssessment.create`), so they are omitted here; `currentFilePath`
stands for `this.currentFile?.path ?? ''`. -/
def parseAssessmentCallout (currentFilePath : Str) (calloutBlock : Str) :
    Option NoteAssessment :=
  let lines := (splitOnChar '\n' calloutBlock).map stripQuote
  let tableLines := lines.filter calloutLinePred
  parseCore currentFilePath tableLines

/-! ## Lemmas about the string utilities -/

lemma splitOnChar_nosep (sep : Char) :
    ∀ l : Str, sep ∉ l → splitOnChar sep l = [l] := by
  intro l
  induction l with
  | nil => intro _; rfl
  | cons c cs ih =>
    intro h
    have hc : ¬(c = sep) := fun e => h (by simp [e])
    have hcs : sep ∉ cs := fun m => h (List.mem_cons_of_mem _ m)
    simp [splitOnChar, ih hcs, hc]

lemma splitOnChar_append (sep : Char) :
    ∀ (l s : Str), sep ∉ l →
      splitOnChar sep (l ++ sep :: s) = l :: splitOnChar sep s := by
  intro l
  induction l with
  | nil =>
    intro s _
    simp [splitOnChar]
  | cons c cs ih =>
    intro s h
    have hc : ¬(c = sep) := fun e => h (by simp [e])
    have hcs : sep ∉ cs := fun m => h (List.mem_cons_of_mem _ m)
    have h2 := ih s hcs
    simp only [List.cons_append, splitOnChar, List.append_eq, h2, hc,
      decide_False, decide_eq_false]

lemma join_split (sep : Char) :
    ∀ ls : List Str, ls ≠ [] → (∀ l ∈ ls, sep ∉ l) →
      splitOnChar sep (joinWith sep ls) = ls := by
  intro ls
  induction ls with
  | nil => intro h; exact absurd rfl h
  | cons l t ih =>
    intro _ hall
    match t with
    | [] =>
      exact splitOnChar_nosep sep l (hall l (by simp))
    | l' :: t' =>
      show splitOnChar sep (l ++ sep :: joinWith sep (l' :: t')) = _
      rw [splitOnChar_append sep l _ (hall l (by simp))]
      rw [ih (by simp) (fun x hx => hall x (by simp [hx]))]

lemma startsWithSeq_nil_iff (pat : Str) :
    startsWithSeq pat [] = true ↔ pat = [] := by
  cases pat <;> simp [startsWithSeq]

lemma startsWithSeq_through (pat : Str) (d : Char) (hd : d ∉ pat) :
    ∀ (a b : Str), startsWithSeq pat (a ++ d :: b) = true →
      startsWithSeq pat a = true := by
  induction pat with
  | nil => intro a _ _; cases a <;> rfl
  | cons c p ih =>
    intro a b h
    cases a with
    | nil =>
      simp only [List.nil_append, startsWithSeq, Bool.and_eq_true,
        decide_eq_true_eq] at h
      exact absurd (List.mem_cons.mpr (Or.inl h.1.symm)) hd
    | cons x a' =>
      simp only [List.cons_append, startsWithSeq, Bool.and_eq_true] at h ⊢
      exact ⟨h.1, ih (fun m => hd (List.mem_cons_of_mem _ m)) a' b h.2⟩

lemma hasSub_of_startsWith {pat s : Str}
    (h : startsWithSeq pat s = true) : hasSub pat s = true := by
  cases s <;> simp [hasSub, h]

lemma hasSub_cons_of_tail {pat t : Str} (x : Char)
    (h : hasSub pat t = true) : hasSub pat (x :: t) = true := by
  simp [hasSub, h]

lemma hasSub_split {pat : Str} {d : Char} (hd : d ∉ pat) :
    ∀ (a b : Str), hasSub pat (a ++ d :: b) = true →
      hasSub pat a = true ∨ hasSub pat b = true := by
  intro a
  induction a with
  | nil =>
    intro b h
    simp only [List.nil_append, hasSub, Bool.or_eq_true] at h
    rcases h with h | h
    · left
      have := startsWithSeq_through pat d hd [] b h
      exact hasSub_of_startsWith this
    · right
      exact h
  | cons x a' ih =>
    intro b h
    simp only [List.cons_append, hasSub, Bool.or_eq_true] at h
    rcases h with h | h
    · left
      have h2 : startsWithSeq pat ((x :: a') ++ d :: b) = true := by
        simpa using h
      exact hasSub_of_startsWith (startsWithSeq_through pat d hd _ b h2)
    · rcases ih b h with h3 | h3
      · exact Or.inl (hasSub_cons_of_tail x h3)
      · exact Or.inr h3

lemma startsWithSeq_exists {pat : Str} :
    ∀ {s : Str}, startsWithSeq pat s = true → ∃ y, s = pat ++ y := by
  induction pat with
  | nil => intro s _; exact ⟨s, rfl⟩
  | cons c p ih =>
    intro s h
    cases s with
    | nil => simp [startsWithSeq] at h
    | cons d t =>
      simp only [startsWithSeq, Bool.and_eq_true, decide_eq_true_eq] at h
      obtain ⟨y, hy⟩ := ih h.2
      exact ⟨y, by simp [h.1, hy]⟩

lemma exists_of_hasSub {pat : Str} :
    ∀ {s : Str}, hasSub pat s = true → ∃ x y, s = x ++ pat ++ y := by
  intro s
  induction s with
  | nil =>
    intro h
    have := (startsWithSeq_nil_iff pat).mp h
    exact ⟨[], [], by simp [this]⟩
  | cons c t ih =>
    intro h
    simp only [hasSub, Bool.or_eq_true] at h
    rcases h with h | h
    · obtain ⟨y, hy⟩ := startsWithSeq_exists h
      exact ⟨[], y, by simp [hy]⟩
    · obtain ⟨x, y, hxy⟩ := ih h
      exact ⟨c :: x, y, by simp [hxy]⟩

lemma mem_of_hasSub {pat s : Str} {c : Char} (hc : c ∈ pat)
    (h : hasSub pat s = true) : c ∈ s := by
  obtain ⟨x, y, hxy⟩ := exists_of_hasSub h
  subst hxy
  simp [hc]

/-! ## Lemmas about digits and number printing -/

lemma digitChar_toNat {d : ℕ} (hd : d < 10) :
    (digitChar d).toNat = 48 + d := by
  interval_cases d <;> rfl

lemma isDigitChar_digitChar {d : ℕ} (hd : d < 10) :
    isDigitChar (digitChar d) = true := by
  interval_cases d <;> decide

lemma natToStr_digits (n : ℕ) : ∀ c ∈ natToStr n, isDigitChar c = true := by
  induction n using Nat.strong_induction_on with
  | _ n ih =>
    rw [natToStr]
    split_ifs with h
    · intro c hc
      rw [List.mem_singleton] at hc
      subst hc
      exact isDigitChar_digitChar h
    · intro c hc
      rw [List.mem_append] at hc
      rcases hc with hc | hc
      · exact ih (n / 10) (Nat.div_lt_self (by omega) (by omega)) c hc
      · rw [List.mem_singleton] at hc
        subst hc
        exact isDigitChar_digitChar (Nat.mod_lt _ (by omega))

lemma natToStr_ne_nil (n : ℕ) : natToStr n ≠ [] := by
  rw [natToStr]
  split_ifs with h
  · simp
  · simp

lemma strToNat_natToStr (n : ℕ) : strToNat (natToStr n) = n := by
  induction n using Nat.strong_induction_on with
  | _ n ih =>
    rw [natToStr]
    split_ifs with h
    · simp [strToNat, digitChar_toNat h]
    · have ih2 := ih (n / 10) (Nat.div_lt_self (by omega) (by omega))
      unfold strToNat at ih2 ⊢
      rw [List.foldl_append, ih2]
      simp [digitChar_toNat (Nat.mod_lt n (by omega) : n % 10 < 10)]
      omega

lemma isDigitChar_ne {c : Char} (h : isDigitChar c = true) :
    c ≠ '\n' ∧ c ≠ '|' ∧ c ≠ '-' ∧ c ≠ 'D' ∧ jsIsSpace c = false := by
  simp only [isDigitChar, Bool.and_eq_true, decide_eq_true_eq] at h
  refine ⟨?_, ?_, ?_, ?_, ?_⟩
  · intro he; subst he; simp at h
  · intro he; subst he; simp at h
  · intro he; subst he; simp at h
  · intro he; subst he; simp at h
  · simp only [jsIsSpace, Bool.or_eq_false_iff, decide_eq_false_iff_not]
    refine ⟨⟨⟨⟨⟨?_, ?_⟩, ?_⟩, ?_⟩, ?_⟩, ?_⟩ <;>
      (intro he; subst he; simp at h)

lemma takeWhile_append_stop (p : Char → Bool) :
    ∀ (ds rest : Str), (∀ c ∈ ds, p c = true) →
      (∀ c, rest.head? = some c → p c = false) →
      (ds ++ rest).takeWhile p = ds := by
  intro ds
  induction ds with
  | nil =>
    intro rest _ hr
    cases rest with
    | nil => rfl
    | cons c t =>
      simp [List.takeWhile_cons, hr c rfl]
  | cons x ds' ih =>
    intro rest hds hr
    have hx : p x = true := hds x (by simp)
    have h2 := ih rest (fun c hc => hds c (by simp [hc])) hr
    simp [List.takeWhile_cons, hx, h2]

lemma firstDigitRun_of_digits (ds rest : Str) (hne : ds ≠ [])
    (hds : ∀ c ∈ ds, isDigitChar c = true)
    (hr : ∀ c, rest.head? = some c → isDigitChar c = false) :
    firstDigitRun (ds ++ rest) = some ds := by
  cases ds with
  | nil => exact absurd rfl hne
  | cons c t =>
    have hc : isDigitChar c = true := hds c (by simp)
    simp only [List.cons_append, firstDigitRun, List.append_eq, hc,
      if_true]
    rw [← List.cons_append]
    rw [takeWhile_append_stop isDigitChar (c :: t) rest hds hr]

lemma jsTrim_eq_nil_iff (s : Str) :
    jsTrim s = [] ↔ ∀ c ∈ s, jsIsSpace c = true := by
  unfold jsTrim
  rw [List.reverse_eq_nil_iff, List.dropWhile_eq_nil_iff]
  constructor
  · intro h c hc
    rcases List.mem_append.mp
        ((List.takeWhile_append_dropWhile (p := jsIsSpace) (l := s)) ▸ hc)
      with hm | hm
    · exact List.mem_takeWhile_imp hm
    · exact h c (by simpa using hm)
  · intro h c hc
    have hc2 : c ∈ s.dropWhile jsIsSpace := by simpa using hc
    refine h c ?_
    rw [← List.takeWhile_append_dropWhile (p := jsIsSpace) (l := s)]
    exact List.mem_append.mpr (Or.inr hc2)

lemma jsTrim_sandwich (c : Char) (t : Str)
    (h1 : jsIsSpace c = false)
    (h2 : jsIsSpace ((c :: t).getLast (by simp)) = false) :
    jsTrim (' ' :: (c :: t) ++ [' ']) = c :: t := by
  unfold jsTrim
  have e1 : (' ' :: (c :: t) ++ [' ']).dropWhile jsIsSpace =
      (c :: t) ++ [' '] := by
    rw [List.cons_append, List.dropWhile_cons]
    simp only [show jsIsSpace ' ' = true from rfl, if_true]
    rw [List.cons_append, List.dropWhile_cons, h1]
    simp
  rw [e1]
  have e2 : ((c :: t) ++ [' ']).reverse = ' ' :: (c :: t).reverse := by
    simp
  rw [e2, List.dropWhile_cons]
  simp only [show jsIsSpace ' ' = true from rfl, if_true]
  have e3 : (c :: t).reverse =
      (c :: t).getLast (by simp) :: (c :: t).dropLast.reverse := by
    conv_lhs => rw [← List.dropLast_append_getLast
      (l := c :: t) (by simp)]
    rw [List.reverse_append]
    simp
  rw [e3, List.dropWhile_cons, h2]
  simp only [Bool.false_eq_true, if_false]
  rw [← e3]
  simp

lemma escapePipesNewlines_id :
    ∀ s : Str, '|' ∉ s → '\n' ∉ s → escapePipesNewlines s = s := by
  intro s
  induction s with
  | nil => intro _ _; rfl
  | cons c t ih =>
    intro h1 h2
    have hc1 : ¬(c = '|') := fun e => h1 (by simp [e])
    have hc2 : ¬(c = '\n') := fun e => h2 (by simp [e])
    have ht := ih (fun m => h1 (List.mem_cons_of_mem _ m))
      (fun m => h2 (List.mem_cons_of_mem _ m))
    simp [escapePipesNewlines, hc1, hc2, ht]

lemma truncateFeedback_id {s : Str} (h : s.length ≤ 100) :
    truncateFeedback s = s := by
  unfold truncateFeedback
  rw [if_neg (by omega)]

lemma nl_not_mem_natToStr (n : ℕ) : '\n' ∉ natToStr n := by
  intro hm
  exact absurd rfl (isDigitChar_ne (natToStr_digits n _ hm)).1

lemma pipe_not_mem_natToStr (n : ℕ) : '|' ∉ natToStr n := by
  intro hm
  exact absurd rfl (isDigitChar_ne (natToStr_digits n _ hm)).2.1

lemma nl_not_mem_intToStr (k : ℤ) : '\n' ∉ intToStr k := by
  unfold intToStr
  split_ifs with h
  · intro hm
    rcases List.mem_cons.mp hm with hm | hm
    · simp at hm
    · exact nl_not_mem_natToStr _ hm
  · exact nl_not_mem_natToStr _

lemma nl_not_mem_scoreGrade (k : ℤ) : '\n' ∉ scoreGrade k := by
  unfold scoreGrade
  split_ifs <;> decide

open MaturityLevelEnum in
lemma nl_not_mem_levelIcon (l : MaturityLevelEnum) :
    '\n' ∉ levelIcon l := by
  cases l <;> decide

open MaturityLevelEnum in
lemma nl_not_mem_levelDisplayName (l : MaturityLevelEnum) :
    '\n' ∉ levelDisplayName l := by
  cases l <;> decide

lemma jsTrim_pad_ne_nil {fb : Str} (h : jsTrim fb ≠ []) :
    jsTrim (' ' :: fb ++ [' ']) ≠ [] := by
  intro hnil
  apply h
  rw [jsTrim_eq_nil_iff] at hnil ⊢
  intro c hc
  exact hnil c (by simp [hc])

lemma intToStr_natCast (n : ℕ) : intToStr (n : ℤ) = natToStr n := by
  unfold intToStr
  rw [if_neg (by omega)]
  simp

lemma ratToStr_natCast (n : ℕ) : ratToStr ((n : ℕ) : ℚ) = natToStr n := by
  unfold ratToStr
  rw [if_pos (Rat.den_natCast n), Rat.num_natCast, intToStr_natCast]

lemma splitOnChar_sep_cons (sep : Char) (s : Str) :
    splitOnChar sep (sep :: s) = [] :: splitOnChar sep s := by
  simp [splitOnChar]

/-- The body of one callout table row, after quote-marker stripping, in
cons-normal form. -/
def rowCore (name ds fb : Str) : Str :=
  '|' :: ' ' :: (name ++ (' ' :: '|' :: ' ' ::
    (ds ++ ('p' :: 't' :: 's' :: ' ' :: '|' :: ' ' ::
      (fb ++ [' ', '|'])))))

lemma calloutRow_norm (a : NoteAssessment) (imp : ImprovementSuggestion) :
    calloutRow a imp = rowCore imp.dimension
      (ratToStr (getScoreForDimension a.qualityScore imp.dimension))
      (truncateFeedback (escapePipesNewlines imp.suggestion)) := by
  simp [calloutRow, rowCore, str]

lemma splitOnChar_rowCore (name ds fb : Str) (hname : '|' ∉ name)
    (hds : '|' ∉ ds) (hfb : '|' ∉ fb) :
    splitOnChar '|' (rowCore name ds fb) =
      [[], ' ' :: name ++ [' '],
        ' ' :: ds ++ ('p' :: 't' :: 's' :: [' ']),
        ' ' :: fb ++ [' '], []] := by
  unfold rowCore
  rw [splitOnChar_sep_cons]
  have e1 : (' ' :: (name ++ (' ' :: '|' :: ' ' ::
      (ds ++ ('p' :: 't' :: 's' :: ' ' :: '|' :: ' ' ::
        (fb ++ [' ', '|'])))))) =
      (' ' :: name ++ [' ']) ++ '|' ::
        (' ' :: ds ++ ('p' :: 't' :: 's' :: ' ' :: '|' :: ' ' ::
          (fb ++ [' ', '|']))) := by
    simp
  rw [e1, splitOnChar_append _ _ _ (by simpa using hname)]
  have e2 : (' ' :: ds ++ ('p' :: 't' :: 's' :: ' ' :: '|' :: ' ' ::
      (fb ++ [' ', '|']))) =
      (' ' :: ds ++ ('p' :: 't' :: 's' :: [' '])) ++ '|' ::
        (' ' :: fb ++ [' ', '|']) := by
    simp
  rw [e2, splitOnChar_append _ _ _ (by simpa using hds)]
  have e3 : (' ' :: fb ++ [' ', '|']) =
      (' ' :: fb ++ [' ']) ++ '|' :: [] := by
    simp
  rw [e3, splitOnChar_append _ _ _ (by simpa using hfb)]
  rfl

lemma getLast_eq_of_eq {l₁ l₂ : Str} (h : l₁ = l₂) (h₁ : l₁ ≠ []) :
    l₁.getLast h₁ = l₂.getLast (h ▸ h₁) := by
  subst h
  rfl

lemma jsTrim_scoreCell (n : ℕ) :
    jsTrim (' ' :: (natToStr n) ++ ('p' :: 't' :: 's' :: [' '])) =
      natToStr n ++ ['p', 't', 's'] := by
  obtain ⟨c, t, hct⟩ : ∃ c t, natToStr n = c :: t := by
    rcases h : natToStr n with _ | ⟨c, t⟩
    · exact absurd h (natToStr_ne_nil n)
    · exact ⟨c, t, rfl⟩
  have hdig : isDigitChar c = true := by
    have := natToStr_digits n c (by simp [hct])
    exact this
  have e1 : (' ' :: (natToStr n) ++ ('p' :: 't' :: 's' :: [' '])) =
      ' ' :: (c :: (t ++ ['p', 't', 's'])) ++ [' '] := by
    simp [hct]
  rw [e1, jsTrim_sandwich]
  · simp [hct]
  · exact (isDigitChar_ne hdig).2.2.2.2
  · have h2 : (c :: (t ++ ['p', 't', 's'])) =
        (c :: (t ++ ['p', 't'])) ++ ['s'] := by simp
    rw [getLast_eq_of_eq h2, List.getLast_append_singleton]
    decide

lemma parseTableLine_rowCore
    (acc : List (Str × (ℕ × Str)) × List ImprovementSuggestion)
    (name : Str) (n : ℕ) (fb : Str)
    (hname : '|' ∉ name) (hnn : name ≠ [])
    (htrim : jsTrim (' ' :: name ++ [' ']) = name)
    (hfb : '|' ∉ fb) (hfbtrim : jsTrim fb ≠ []) :
    parseTableLine acc (rowCore name (natToStr n) fb) =
      (mapSet acc.1 name (n, unescapePipes (jsTrim (' ' :: fb ++ [' ']))),
        acc.2 ++ [⟨name,
          if n ≥ 80 then .low else if n ≥ 60 then .medium else .high,
          unescapePipes (jsTrim (' ' :: fb ++ [' '])), none⟩]) := by
  unfold parseTableLine
  rw [splitOnChar_rowCore name (natToStr n) fb hname
    (pipe_not_mem_natToStr n) hfb]
  have hnamec : name.isEmpty = false := by
    simpa [List.isEmpty_iff] using hnn
  have hsc : (natToStr n ++ ['p', 't', 's']).isEmpty = false := by
    simp [List.isEmpty_iff]
  have hfbc : (jsTrim (' ' :: fb ++ [' '])).isEmpty = false := by
    simpa [List.isEmpty_iff] using jsTrim_pad_ne_nil hfbtrim
  simp only [List.map_cons, List.map_nil, jsTrim_scoreCell, htrim,
    show jsTrim ([] : Str) = [] from rfl, List.filter_cons,
    List.filter_nil, List.isEmpty_nil, Bool.not_true, Bool.not_false,
    hnamec, hsc, hfbc, if_true, if_false, Bool.false_eq_true]
  rw [firstDigitRun_of_digits (natToStr n) ['p', 't', 's']
    (natToStr_ne_nil n) (natToStr_digits n)
    (by intro c hc; simp at hc; subst hc; decide)]
  simp only [strToNat_natToStr]

/-- The dimension map `fromScores` builds: one entry per catalog type,
in catalog order, with the given (already validated) scores and
feedback. -/
def catalogScore (v1 v2 v3 v4 v5 : ℚ) (g1 g2 g3 g4 g5 : Str) :
    QualityScore :=
  ⟨[(.atomicity, ⟨.atomicity, v1, g1⟩),
    (.connectivity, ⟨.connectivity, v2, g2⟩),
    (.clarity, ⟨.clarity, v3, g3⟩),
    (.evidence, ⟨.evidence, v4, g4⟩),
    (.originality, ⟨.originality, v5, g5⟩)]⟩

lemma fromScores_ok (a b c d e : ℚ × Str) :
    QualityScore.fromScores a b c d e = .ok
      (catalogScore (validateScore a.1) (validateScore b.1)
        (validateScore c.1) (validateScore d.1) (validateScore e.1)
        a.2 b.2 c.2 d.2 e.2) := by
  simp [QualityScore.fromScores, QualityScore.create, getAllTypes,
    QualityDimension.create, buildDimMap, mapSet, catalogScore]

open QualityDimensionType in
lemma getScore_explicit (v1 v2 v3 v4 v5 : ℚ) (g1 g2 g3 g4 g5 : Str) :
    getScoreForDimension (catalogScore v1 v2 v3 v4 v5 g1 g2 g3 g4 g5)
      (str "Atomicity") = v1 ∧
    getScoreForDimension (catalogScore v1 v2 v3 v4 v5 g1 g2 g3 g4 g5)
      (str "Connectivity") = v2 ∧
    getScoreForDimension (catalogScore v1 v2 v3 v4 v5 g1 g2 g3 g4 g5)
      (str "Clarity") = v3 ∧
    getScoreForDimension (catalogScore v1 v2 v3 v4 v5 g1 g2 g3 g4 g5)
      (str "Evidence") = v4 ∧
    getScoreForDimension (catalogScore v1 v2 v3 v4 v5 g1 g2 g3 g4 g5)
      (str "Originality") = v5 := by
  refine ⟨?_, ?_, ?_, ?_, ?_⟩ <;>
    simp [getScoreForDimension, QualityScore.getAllDimensions,
      List.find?, displayName, str, catalogScore]

lemma nl_not_mem_rowCore {name ds fb : Str} (h1 : '\n' ∉ name)
    (h2 : '\n' ∉ ds) (h3 : '\n' ∉ fb) : '\n' ∉ rowCore name ds fb := by
  simp [rowCore, List.mem_append, List.mem_cons, h1, h2, h3]

lemma hasSub_rowCore_false (pat name ds fb : Str)
    (hsp : ' ' ∉ pat)
    (hC : hasSub pat ('|' :: ' ' :: (name ++ [' ', '|'])) = false)
    (hbar : hasSub pat ['|'] = false)
    (hds : ∀ c ∈ ds, isDigitChar c = true)
    (hpat : ∃ c ∈ pat, isDigitChar c = false ∧ c ∉ (['p', 't', 's'] : Str))
    (hfb : hasSub pat fb = false) :
    hasSub pat (rowCore name ds fb) = false := by
  cases htrue : hasSub pat (rowCore name ds fb) with
  | false => rfl
  | true =>
    exfalso
    have e1 : rowCore name ds fb =
        ('|' :: ' ' :: (name ++ (' ' :: '|' :: ' ' ::
          (ds ++ ['p', 't', 's', ' ', '|'])))) ++
          ' ' :: (fb ++ [' ', '|']) := by
      simp [rowCore]
    rcases hasSub_split hsp _ _ (e1 ▸ htrue) with h1 | h1
    · have e3 : ('|' :: ' ' :: (name ++ (' ' :: '|' :: ' ' ::
          (ds ++ ['p', 't', 's', ' ', '|'])))) =
          ('|' :: ' ' :: (name ++ (' ' :: '|' :: ' ' ::
            (ds ++ ['p', 't', 's'])))) ++ ' ' :: ['|'] := by
        simp
      rcases hasSub_split hsp _ _ (e3 ▸ h1) with h2 | h2
      · have e4 : ('|' :: ' ' :: (name ++ (' ' :: '|' :: ' ' ::
            (ds ++ ['p', 't', 's'])))) =
            ('|' :: ' ' :: (name ++ [' ', '|'])) ++
              ' ' :: (ds ++ ['p', 't', 's']) := by
          simp
        rcases hasSub_split hsp _ _ (e4 ▸ h2) with h3 | h3
        · rw [hC] at h3
          exact Bool.false_ne_true h3
        · obtain ⟨c, hcp, hcd, hcn⟩ := hpat
          rcases List.mem_append.mp (mem_of_hasSub hcp h3) with hm | hm
          · rw [hds c hm] at hcd
            simp at hcd
          · exact hcn hm
      · rw [hbar] at h2
        exact Bool.false_ne_true h2
    · rcases hasSub_split hsp fb ['|'] h1 with h2 | h2
      · rw [hfb] at h2
        exact Bool.false_ne_true h2
      · rw [hbar] at h2
        exact Bool.false_ne_true h2

lemma nl_not_mem_titleLine {date : Str} (hdate : '\n' ∉ date) :
    '\n' ∉ calloutTitleLine date := by
  simp [calloutTitleLine, str, List.mem_append, hdate]

lemma nl_not_mem_totalLine (T : ℤ) : '\n' ∉ calloutTotalLine T := by
  simp [calloutTotalLine, str, List.mem_append, nl_not_mem_intToStr,
    nl_not_mem_scoreGrade]

lemma nl_not_mem_maturityLine (mat : MaturityLevelEnum) :
    '\n' ∉ calloutMaturityLine mat := by
  simp [calloutMaturityLine, str, List.mem_append, nl_not_mem_levelIcon,
    nl_not_mem_levelDisplayName]

lemma parse_encoded_pipeline (cfp date : Str) (T : ℤ)
    (mat : MaturityLevelEnum) (rows : List Str) (hdate : '\n' ∉ date)
    (hrows_nl : ∀ r ∈ rows, '\n' ∉ r)
    (hrows_pred : ∀ r ∈ rows, calloutLinePred r = true) :
    parseAssessmentCallout cfp (joinWith '\n'
      ([calloutTitleLine date, calloutTotalLine T, calloutMaturityLine mat,
        str ">", str "> | Dimension | Score | Feedback |",
        str "> |-----------|-------|----------|"] ++
        rows.map (fun r => str "> " ++ r))) = parseCore cfp rows := by
  show parseCore cfp (List.filter calloutLinePred
    ((splitOnChar '\n' (joinWith '\n'
      ([calloutTitleLine date, calloutTotalLine T, calloutMaturityLine mat,
        str ">", str "> | Dimension | Score | Feedback |",
        str "> |-----------|-------|----------|"] ++
        rows.map (fun r => str "> " ++ r)))).map stripQuote)) =
    parseCore cfp rows
  rw [join_split '\n' _ (by simp) ?nlfree]
  case nlfree =>
    intro l hl
    simp only [List.mem_append, List.mem_cons, List.mem_map,
      List.not_mem_nil, or_false] at hl
    rcases hl with (rfl | rfl | rfl | rfl | rfl | rfl) | ⟨r, hr, rfl⟩
    · exact nl_not_mem_titleLine hdate
    · exact nl_not_mem_totalLine T
    · exact nl_not_mem_maturityLine mat
    · decide
    · decide
    · decide
    · intro hm
      rcases List.mem_append.mp hm with hm | hm
      · simp [str] at hm
      · exact hrows_nl r hr hm
  rw [List.map_append, List.map_map]
  have hmaprows : rows.map (stripQuote ∘ fun r => str "> " ++ r) =
      rows := by
    have hid : (stripQuote ∘ fun r => str "> " ++ r) = id := by
      funext r
      rfl
    rw [hid, List.map_id]
  rw [hmaprows, List.filter_append]
  have h6 : ([calloutTitleLine date, calloutTotalLine T,
      calloutMaturityLine mat, str ">",
      str "> | Dimension | Score | Feedback |",
      str "> |-----------|-------|----------|"].map stripQuote).filter
        calloutLinePred = [] := by
    simp only [List.map_cons, List.map_nil, List.filter_cons,
      List.filter_nil]
    rw [show calloutLinePred (stripQuote (calloutTitleLine date)) =
        false from rfl,
      show calloutLinePred (stripQuote (calloutTotalLine T)) = false
        from rfl,
      show calloutLinePred (stripQuote (calloutMaturityLine mat)) = false
        from rfl,
      show calloutLinePred (stripQuote (str ">")) = false from rfl,
      show calloutLinePred
        (stripQuote (str "> | Dimension | Score | Feedback |")) = false
        from by decide,
      show calloutLinePred
        (stripQuote (str "> |-----------|-------|----------|")) = false
        from by decide]
    simp
  rw [h6, List.nil_append, List.filter_eq_self.mpr hrows_pred]

/-- The feedback text a table row decodes to. -/
def parsedFeedback (fb : Str) : Str :=
  unescapePipes (jsTrim (' ' :: fb ++ [' ']))

/-- The priority a table row decodes to from its score. -/
def parsedPriority (n : ℕ) : SuggestionPriority :=
  if n ≥ 80 then .low else if n ≥ 60 then .medium else .high

open QualityDimensionType in
lemma parseCore_catalog_rows (cfp : Str) (n1 n2 n3 n4 n5 : ℕ)
    (fb1 fb2 fb3 fb4 fb5 : Str)
    (hp1 : '|' ∉ fb1) (ht1 : jsTrim fb1 ≠ [])
    (hp2 : '|' ∉ fb2) (ht2 : jsTrim fb2 ≠ [])
    (hp3 : '|' ∉ fb3) (ht3 : jsTrim fb3 ≠ [])
    (hp4 : '|' ∉ fb4) (ht4 : jsTrim fb4 ≠ [])
    (hp5 : '|' ∉ fb5) (ht5 : jsTrim fb5 ≠ []) :
    parseCore cfp
      [rowCore (str "Atomicity") (natToStr n1) fb1,
       rowCore (str "Connectivity") (natToStr n2) fb2,
       rowCore (str "Clarity") (natToStr n3) fb3,
       rowCore (str "Evidence") (natToStr n4) fb4,
       rowCore (str "Originality") (natToStr n5) fb5] =
    some (NoteAssessment.create cfp cfp ⟨[
        (atomicity, ⟨atomicity, validateScore (n1 : ℚ), parsedFeedback fb1⟩),
        (connectivity,
          ⟨connectivity, validateScore (n2 : ℚ), parsedFeedback fb2⟩),
        (clarity, ⟨clarity, validateScore (n3 : ℚ), parsedFeedback fb3⟩),
        (evidence, ⟨evidence, validateScore (n4 : ℚ), parsedFeedback fb4⟩),
        (originality,
          ⟨originality, validateScore (n5 : ℚ), parsedFeedback fb5⟩)]⟩
      MaturityLevel.defaultLevel
      [⟨str "Atomicity", parsedPriority n1, parsedFeedback fb1, none⟩,
       ⟨str "Connectivity", parsedPriority n2, parsedFeedback fb2, none⟩,
       ⟨str "Clarity", parsedPriority n3, parsedFeedback fb3, none⟩,
       ⟨str "Evidence", parsedPriority n4, parsedFeedback fb4, none⟩,
       ⟨str "Originality", parsedPriority n5, parsedFeedback fb5, none⟩]) := by
  unfold parseCore
  rw [List.foldl_cons,
    parseTableLine_rowCore _ _ _ _ (by decide) (by decide) (by decide)
      hp1 ht1]
  rw [List.foldl_cons,
    parseTableLine_rowCore _ _ _ _ (by decide) (by decide) (by decide)
      hp2 ht2]
  rw [List.foldl_cons,
    parseTableLine_rowCore _ _ _ _ (by decide) (by decide) (by decide)
      hp3 ht3]
  rw [List.foldl_cons,
    parseTableLine_rowCore _ _ _ _ (by decide) (by decide) (by decide)
      hp4 ht4]
  rw [List.foldl_cons,
    parseTableLine_rowCore _ _ _ _ (by decide) (by decide) (by decide)
      hp5 ht5]
  rw [List.foldl_nil]
  simp only [mapSet, str]
  simp [mapGet, List.find?, fromScores_ok, parsedFeedback,
    parsedPriority, str, catalogScore]


/-- `QualityScore.getDimension`. -/
def QualityScore.getDimension (qs : QualityScore)
    (t : QualityDimensionType) : Option QualityDimension :=
  mapGet qs.dims t

open QualityDimensionType in
/-- C1 (amended): for an assessment whose five stored dimension scores
are integers in [0,100] (any score produced by `fromScores` on raw
integer inputs in range) and whose improvements list has, in catalog
order, exactly one entry per catalog dimension labeled with the
dimension's English display name, with suggestion texts of at most 100
characters containing no pipe, no newline, no "---" and no "Dimension"
substring and nonempty after trimming, encoding to the callout block and
decoding it reproduces the total score and every per-dimension score. -/
theorem C1_roundtrip_amended
    (s1 s2 s3 s4 s5 : ℕ)
    (hs1 : s1 ≤ 100) (hs2 : s2 ≤ 100) (hs3 : s3 ≤ 100)
    (hs4 : s4 ≤ 100) (hs5 : s5 ≤ 100)
    (g1 g2 g3 g4 g5 : Str)
    (fb1 fb2 fb3 fb4 fb5 : Str)
    (p1 p2 p3 p4 p5 : SuggestionPriority)
    (ex1 ex2 ex3 ex4 ex5 : Option Str)
    (date nid npath cfp : Str) (cur : MaturityLevelEnum)
    (hdate : '\n' ∉ date)
    (hfb : ∀ fb ∈ [fb1, fb2, fb3, fb4, fb5],
      '\n' ∉ fb ∧ '|' ∉ fb ∧ fb.length ≤ 100 ∧ jsTrim fb ≠ [] ∧
      hasSub (str "---") fb = false ∧
      hasSub (str "Dimension") fb = false)
    (qs : QualityScore)
    (hqs : QualityScore.fromScores ((s1 : ℚ), g1) ((s2 : ℚ), g2)
      ((s3 : ℚ), g3) ((s4 : ℚ), g4) ((s5 : ℚ), g5) = .ok qs) :
    ∃ a' : NoteAssessment,
      parseAssessmentCallout cfp
        (generateAssessmentCallout
          (NoteAssessment.create nid npath qs cur
            [⟨displayName atomicity, p1, fb1, ex1⟩,
             ⟨displayName connectivity, p2, fb2, ex2⟩,
             ⟨displayName clarity, p3, fb3, ex3⟩,
             ⟨displayName evidence, p4, fb4, ex4⟩,
             ⟨displayName originality, p5, fb5, ex5⟩]) date) = some a' ∧
      a'.qualityScore.totalScore = qs.totalScore ∧
      ∀ t : QualityDimensionType,
        (a'.qualityScore.getDimension t).map (·.score) =
          (qs.getDimension t).map (·.score) := by
  obtain ⟨hn1, hpp1, hl1, ht1, hd1, hD1⟩ := hfb fb1 (by simp)
  obtain ⟨hn2, hpp2, hl2, ht2, hd2, hD2⟩ := hfb fb2 (by simp)
  obtain ⟨hn3, hpp3, hl3, ht3, hd3, hD3⟩ := hfb fb3 (by simp)
  obtain ⟨hn4, hpp4, hl4, ht4, hd4, hD4⟩ := hfb fb4 (by simp)
  obtain ⟨hn5, hpp5, hl5, ht5, hd5, hD5⟩ := hfb fb5 (by simp)
  have hqsE : qs = catalogScore (validateScore (s1 : ℚ))
      (validateScore (s2 : ℚ)) (validateScore (s3 : ℚ))
      (validateScore (s4 : ℚ)) (validateScore (s5 : ℚ))
      g1 g2 g3 g4 g5 := by
    have h2 := fromScores_ok ((s1 : ℚ), g1) ((s2 : ℚ), g2) ((s3 : ℚ), g3)
      ((s4 : ℚ), g4) ((s5 : ℚ), g5)
    rw [hqs] at h2
    exact Except.ok.inj h2
  subst hqsE
  have hg := getScore_explicit (validateScore (s1 : ℚ))
    (validateScore (s2 : ℚ)) (validateScore (s3 : ℚ))
    (validateScore (s4 : ℚ)) (validateScore (s5 : ℚ)) g1 g2 g3 g4 g5
  have hr1 : ratToStr (getScoreForDimension
      (catalogScore (validateScore (s1 : ℚ)) (validateScore (s2 : ℚ))
        (validateScore (s3 : ℚ)) (validateScore (s4 : ℚ))
        (validateScore (s5 : ℚ)) g1 g2 g3 g4 g5) (str "Atomicity")) =
      natToStr s1 := by
    rw [hg.1, validateScore_natCast hs1, ratToStr_natCast]
  have hr2 : ratToStr (getScoreForDimension
      (catalogScore (validateScore (s1 : ℚ)) (validateScore (s2 : ℚ))
        (validateScore (s3 : ℚ)) (validateScore (s4 : ℚ))
        (validateScore (s5 : ℚ)) g1 g2 g3 g4 g5) (str "Connectivity")) =
      natToStr s2 := by
    rw [hg.2.1, validateScore_natCast hs2, ratToStr_natCast]
  have hr3 : ratToStr (getScoreForDimension
      (catalogScore (validateScore (s1 : ℚ)) (validateScore (s2 : ℚ))
        (validateScore (s3 : ℚ)) (validateScore (s4 : ℚ))
        (validateScore (s5 : ℚ)) g1 g2 g3 g4 g5) (str "Clarity")) =
      natToStr s3 := by
    rw [hg.2.2.1, validateScore_natCast hs3, ratToStr_natCast]
  have hr4 : ratToStr (getScoreForDimension
      (catalogScore (validateScore (s1 : ℚ)) (validateScore (s2 : ℚ))
        (validateScore (s3 : ℚ)) (validateScore (s4 : ℚ))
        (validateScore (s5 : ℚ)) g1 g2 g3 g4 g5) (str "Evidence")) =
      natToStr s4 := by
    rw [hg.2.2.2.1, validateScore_natCast hs4, ratToStr_natCast]
  have hr5 : ratToStr (getScoreForDimension
      (catalogScore (validateScore (s1 : ℚ)) (validateScore (s2 : ℚ))
        (validateScore (s3 : ℚ)) (validateScore (s4 : ℚ))
        (validateScore (s5 : ℚ)) g1 g2 g3 g4 g5) (str "Originality")) =
      natToStr s5 := by
    rw [hg.2.2.2.2, validateScore_natCast hs5, ratToStr_natCast]
  have henc : generateAssessmentCallout
      (NoteAssessment.create nid npath
        (catalogScore (validateScore (s1 : ℚ)) (validateScore (s2 : ℚ))
          (validateScore (s3 : ℚ)) (validateScore (s4 : ℚ))
          (validateScore (s5 : ℚ)) g1 g2 g3 g4 g5) cur
        [⟨displayName atomicity, p1, fb1, ex1⟩,
         ⟨displayName connectivity, p2, fb2, ex2⟩,
         ⟨displayName clarity, p3, fb3, ex3⟩,
         ⟨displayName evidence, p4, fb4, ex4⟩,
         ⟨displayName originality, p5, fb5, ex5⟩]) date =
      joinWith '\n'
        ([calloutTitleLine date,
          calloutTotalLine (QualityScore.totalScore
            (catalogScore (validateScore (s1 : ℚ))
              (validateScore (s2 : ℚ)) (validateScore (s3 : ℚ))
              (validateScore (s4 : ℚ)) (validateScore (s5 : ℚ))
              g1 g2 g3 g4 g5)),
          calloutMaturityLine (MaturityLevel.fromQualityScore
            ((QualityScore.totalScore
              (catalogScore (validateScore (s1 : ℚ))
                (validateScore (s2 : ℚ)) (validateScore (s3 : ℚ))
                (validateScore (s4 : ℚ)) (validateScore (s5 : ℚ))
                g1 g2 g3 g4 g5) : ℤ) : ℚ)),
          str ">", str "> | Dimension | Score | Feedback |",
          str "> |-----------|-------|----------|"] ++
        ([rowCore (str "Atomicity") (natToStr s1) fb1,
          rowCore (str "Connectivity") (natToStr s2) fb2,
          rowCore (str "Clarity") (natToStr s3) fb3,
          rowCore (str "Evidence") (natToStr s4) fb4,
          rowCore (str "Originality") (natToStr s5) fb5].map
            (fun r => str "> " ++ r))) := by
    unfold generateAssessmentCallout calloutLines
    congr 1
    simp only [NoteAssessment.create, List.map_cons, List.map_nil,
      calloutRow_norm]
    simp only [displayName]
    rw [hr1, hr2, hr3, hr4, hr5,
      escapePipesNewlines_id fb1 hpp1 hn1, truncateFeedback_id hl1,
      escapePipesNewlines_id fb2 hpp2 hn2, truncateFeedback_id hl2,
      escapePipesNewlines_id fb3 hpp3 hn3, truncateFeedback_id hl3,
      escapePipesNewlines_id fb4 hpp4 hn4, truncateFeedback_id hl4,
      escapePipesNewlines_id fb5 hpp5 hn5, truncateFeedback_id hl5]
  rw [henc, parse_encoded_pipeline cfp date _ _ _ hdate ?rnl ?rpred]
  case rnl =>
    intro r hr
    simp only [List.mem_cons, List.not_mem_nil, or_false] at hr
    rcases hr with rfl | rfl | rfl | rfl | rfl
    · exact nl_not_mem_rowCore (by decide) (nl_not_mem_natToStr s1) hn1
    · exact nl_not_mem_rowCore (by decide) (nl_not_mem_natToStr s2) hn2
    · exact nl_not_mem_rowCore (by decide) (nl_not_mem_natToStr s3) hn3
    · exact nl_not_mem_rowCore (by decide) (nl_not_mem_natToStr s4) hn4
    · exact nl_not_mem_rowCore (by decide) (nl_not_mem_natToStr s5) hn5
  case rpred =>
    intro r hr
    simp only [List.mem_cons, List.not_mem_nil, or_false] at hr
    rcases hr with rfl | rfl | rfl | rfl | rfl
    · unfold calloutLinePred
      rw [hasSub_rowCore_false _ _ _ _ (by decide) (by decide) (by decide)
          (natToStr_digits s1) ⟨'-', by decide, by decide, by decide⟩ hd1,
        hasSub_rowCore_false _ _ _ _ (by decide) (by decide) (by decide)
          (natToStr_digits s1) ⟨'D', by decide, by decide, by decide⟩ hD1]
      rfl
    · unfold calloutLinePred
      rw [hasSub_rowCore_false _ _ _ _ (by decide) (by decide) (by decide)
          (natToStr_digits s2) ⟨'-', by decide, by decide, by decide⟩ hd2,
        hasSub_rowCore_false _ _ _ _ (by decide) (by decide) (by decide)
          (natToStr_digits s2) ⟨'D', by decide, by decide, by decide⟩ hD2]
      rfl
    · unfold calloutLinePred
      rw [hasSub_rowCore_false _ _ _ _ (by decide) (by decide) (by decide)
          (natToStr_digits s3) ⟨'-', by decide, by decide, by decide⟩ hd3,
        hasSub_rowCore_false _ _ _ _ (by decide) (by decide) (by decide)
          (natToStr_digits s3) ⟨'D', by decide, by decide, by decide⟩ hD3]
      rfl
    · unfold calloutLinePred
      rw [hasSub_rowCore_false _ _ _ _ (by decide) (by decide) (by decide)
          (natToStr_digits s4) ⟨'-', by decide, by decide, by decide⟩ hd4,
        hasSub_rowCore_false _ _ _ _ (by decide) (by decide) (by decide)
          (natToStr_digits s4) ⟨'D', by decide, by decide, by decide⟩ hD4]
      rfl
    · unfold calloutLinePred
      rw [hasSub_rowCore_false _ _ _ _ (by decide) (by decide) (by decide)
          (natToStr_digits s5) ⟨'-', by decide, by decide, by decide⟩ hd5,
        hasSub_rowCore_false _ _ _ _ (by decide) (by decide) (by decide)
          (natToStr_digits s5) ⟨'D', by decide, by decide, by decide⟩ hD5]
      rfl
  rw [parseCore_catalog_rows cfp s1 s2 s3 s4 s5 fb1 fb2 fb3 fb4 fb5
    hpp1 ht1 hpp2 ht2 hpp3 ht3 hpp4 ht4 hpp5 ht5]
  refine ⟨_, rfl, ?_, ?_⟩
  · simp [NoteAssessment.create, QualityScore.totalScore,
      calculateTotalScore, catalogScore, QualityDimension.weightedScore]
  · intro t
    cases t <;>
      simp [NoteAssessment.create, QualityScore.getDimension, mapGet,
        List.find?, catalogScore]

lemma parseCore_nil (cfp : Str) :
    parseCore cfp [] = some (NoteAssessment.create cfp cfp
      (catalogScore (validateScore ((0 : ℕ) : ℚ))
        (validateScore ((0 : ℕ) : ℚ)) (validateScore ((0 : ℕ) : ℚ))
        (validateScore ((0 : ℕ) : ℚ)) (validateScore ((0 : ℕ) : ℚ))
        [] [] [] [] [])
      MaturityLevel.defaultLevel []) := by
  unfold parseCore
  simp [mapGet, fromScores_ok]

/-- A concrete assessment: all five dimensions at 80 points and an empty
improvements list (as produced when no dimension scores below 70). -/
def sampleA80 : NoteAssessment :=
  NoteAssessment.create (str "n") (str "n") sampleQS80 .seed []

/-- C1 counterexample: encoding `sampleA80` (five dimension scores of
80, empty improvements list, so every feedback string vacuously meets
the claim's conditions) and decoding the block yields total score 0, not
the original 80: the decoder rebuilds scores only from improvement table
rows and ignores the encoded total line. -/
theorem C1_counterexample :
    ((parseAssessmentCallout (str "n")
        (generateAssessmentCallout sampleA80 (str "2025-01-01"))).map
      (fun a => a.qualityScore.totalScore)) = some 0 ∧
    sampleA80.qualityScore.totalScore = 80 ∧
    ((parseAssessmentCallout (str "n")
        (generateAssessmentCallout sampleA80 (str "2025-01-01"))).map
      (fun a => a.qualityScore.totalScore)) ≠
      some sampleA80.qualityScore.totalScore := by
  have henc : generateAssessmentCallout sampleA80 (str "2025-01-01") =
      joinWith '\n' ([calloutTitleLine (str "2025-01-01"),
        calloutTotalLine sampleQS80.totalScore,
        calloutMaturityLine (MaturityLevel.fromQualityScore
          ((sampleQS80.totalScore : ℤ) : ℚ)),
        str ">", str "> | Dimension | Score | Feedback |",
        str "> |-----------|-------|----------|"] ++
        ([] : List Str).map (fun r => str "> " ++ r)) := by
    simp [generateAssessmentCallout, calloutLines, sampleA80,
      NoteAssessment.create]
  have hparse : (parseAssessmentCallout (str "n")
      (generateAssessmentCallout sampleA80 (str "2025-01-01"))) =
      some (NoteAssessment.create (str "n") (str "n")
        (catalogScore (validateScore ((0 : ℕ) : ℚ))
          (validateScore ((0 : ℕ) : ℚ)) (validateScore ((0 : ℕ) : ℚ))
          (validateScore ((0 : ℕ) : ℚ)) (validateScore ((0 : ℕ) : ℚ))
          [] [] [] [] [])
        MaturityLevel.defaultLevel []) := by
    rw [henc, parse_encoded_pipeline _ _ _ _ [] (by decide)
      (by simp) (by simp), parseCore_nil]
  have htot0 : (NoteAssessment.create (str "n") (str "n")
      (catalogScore (validateScore (0 : ℚ)) (validateScore (0 : ℚ))
        (validateScore (0 : ℚ)) (validateScore (0 : ℚ))
        (validateScore (0 : ℚ)) [] [] [] [] [])
      MaturityLevel.defaultLevel []).qualityScore.totalScore = 0 := by
    have hv0 : validateScore (0 : ℚ) = 0 := by
      norm_num [validateScore, jsRound, Rat.floor_def]
    rw [hv0]
    simp only [NoteAssessment.create, QualityScore.totalScore,
      calculateTotalScore, catalogScore, QualityDimension.weightedScore,
      List.foldl, QualityDimensionType.weight]
    norm_num [jsRound, Rat.floor_def]
  have h80 : sampleA80.qualityScore.totalScore = 80 := sampleQS80_total
  refine ⟨?_, h80, ?_⟩
  · rw [hparse]
    simp [htot0]
  · rw [hparse, h80]
    simp [htot0]

/-- The concrete quality score used in the round-trip witness. -/
def sampleRTScore : QualityScore :=
  catalogScore (validateScore ((50 : ℕ) : ℚ))
    (validateScore ((60 : ℕ) : ℚ)) (validateScore ((70 : ℕ) : ℚ))
    (validateScore ((80 : ℕ) : ℚ)) (validateScore ((90 : ℕ) : ℚ))
    [] [] [] [] []

open QualityDimensionType in
/-- Witness for C1 (amended): a concrete assessment with scores
50/60/70/80/90 and one well-formed improvement entry per dimension
round-trips through the callout with all scores intact. -/
theorem C1_witness :
    (QualityScore.fromScores (((50 : ℕ) : ℚ), []) (((60 : ℕ) : ℚ), [])
      (((70 : ℕ) : ℚ), []) (((80 : ℕ) : ℚ), []) (((90 : ℕ) : ℚ), []) =
      .ok sampleRTScore) ∧
    (∃ a' : NoteAssessment,
      parseAssessmentCallout (str "n.md")
        (generateAssessmentCallout
          (NoteAssessment.create (str "n.md") (str "n.md") sampleRTScore
            .seed
            [⟨displayName atomicity, .high, str "Fix a", none⟩,
             ⟨displayName connectivity, .high, str "Fix b", none⟩,
             ⟨displayName clarity, .high, str "Fix c", none⟩,
             ⟨displayName evidence, .high, str "Fix d", none⟩,
             ⟨displayName originality, .high, str "Fix e", none⟩])
          (str "2025-01-01")) = some a' ∧
      a'.qualityScore.totalScore = sampleRTScore.totalScore ∧
      ∀ t : QualityDimensionType,
        (a'.qualityScore.getDimension t).map (·.score) =
          (sampleRTScore.getDimension t).map (·.score)) :=
  ⟨fromScores_ok _ _ _ _ _,
    C1_roundtrip_amended 50 60 70 80 90
      (by decide) (by decide) (by decide) (by decide) (by decide)
      [] [] [] [] []
      (str "Fix a") (str "Fix b") (str "Fix c") (str "Fix d")
      (str "Fix e")
      .high .high .high .high .high
      none none none none none
      (str "2025-01-01") (str "n.md") (str "n.md") (str "n.md") .seed
      (by decide) (by decide)
      sampleRTScore (fromScores_ok _ _ _ _ _)⟩
